import Mathlib

/-!
Verification model of the IAM policy-enforcement plugin
(`iam/policy_enforcement.py`): credential locator, claim decoder,
tenant resolver, policy store, authorization engine and audit sink.
Python strings are modelled as Lean `String`, Python dicts as ordered
association lists, and JSON policy documents as typed records.
-/

namespace IamPolicy

/-! ## Python string primitives

`pyStrip`, `pyLower`, `splitComma`, `joinComma` model `str.strip()`,
`str.lower()`, `str.split(",")` and `",".join(...)` (ASCII scope). -/

def pyWs (c : Char) : Bool :=
  c = ' ' ∨ c = '\t' ∨ c = '\n' ∨ c = '\r' ∨ c = '\x0b' ∨ c = '\x0c'

def pyStrip (s : String) : String :=
  String.mk (((s.data.dropWhile pyWs).reverse.dropWhile pyWs).reverse)

def pyLower (s : String) : String :=
  String.mk (s.data.map Char.toLower)

def splitCommaAux : List Char → List (List Char)
  | [] => [[]]
  | c :: rest =>
    match splitCommaAux rest with
    | [] => if c = ',' then [[], []] else [[c]]
    | grp :: grps => if c = ',' then [] :: grp :: grps else (c :: grp) :: grps

def splitComma (s : String) : List String :=
  (splitCommaAux s.data).map String.mk

def joinComma : List String → String
  | [] => ""
  | [s] => s
  | s :: rest => s ++ "," ++ joinComma rest

def joinCommaSpace : List String → String
  | [] => ""
  | [s] => s
  | s :: rest => s ++ ", " ++ joinCommaSpace rest

def startsWithList : List Char → List Char → Bool
  | [], _ => true
  | _ :: _, [] => false
  | p :: ps, c :: cs => p = c ∧ startsWithList ps cs

/-- `_sanitize_bearer`: strip a case-insensitive `"bearer "` prefix; falsy
input yields the empty string. -/
def sanitizeBearer (s : String) : String :=
  if s = "" then ""
  else
    let t := pyStrip s
    if startsWithList (pyLower "bearer ").data (pyLower t).data then
      pyStrip (String.mk (t.data.drop 7))
    else t

/-! ## Claim sets -/

/-- A JWT claim value in the scope used by the plugin: the server schema
declares `tenant : str | List[str]`, and role claims are strings or lists
of strings. -/
inductive ClaimVal where
  | str (s : String)
  | list (l : List String)
deriving DecidableEq, Repr

/-- A decoded claim set: an ordered mapping with distinct string keys. -/
abbrev Claims := List (String × ClaimVal)

def ClaimVal.truthy : ClaimVal → Bool
  | .str s => s ≠ ""
  | .list l => l ≠ []

/-- The `for fallback_key in ["tid", "tenant_id", "org_id"]` loop of
`_extract_tenant_from_claims`: the loop variable keeps the first truthy
value, else whatever the final `get` returned. -/
def tenantFallback (claims : Claims) : Option ClaimVal :=
  let v1 := claims.lookup "tid"
  if v1.elim false ClaimVal.truthy then v1
  else
    let v2 := claims.lookup "tenant_id"
    if v2.elim false ClaimVal.truthy then v2
    else claims.lookup "org_id"

/-- `_extract_tenant_from_claims`: primary key `tenant`; fallback keys only
when `tenant` is absent (`is None`); list values comma-joined without
stripping, scalar values stripped; no tenant-bearing value gives the
`"<no_tenant>"` sentinel. -/
def extractTenantFromClaims (claims : Claims) : String :=
  let val :=
    match claims.lookup "tenant" with
    | none => tenantFallback claims
    | some v => some v
  match val with
  | none => "<no_tenant>"
  | some (.list l) => joinComma l
  | some (.str s) => pyStrip s

/-! ## Credential claim decoder (`_decode_jwt`)

The token wire format and the PyJWT library are external to the
repository; a parsed token is modelled by the data `jwt.decode` acts on:
well-formedness, the header algorithm, signature validity as a predicate
of the key, expiry, and the audience claim. -/

structure JwtConfig where
  secret : Option String
  publicKey : Option String
  algorithm : String
  audience : Option String

structure TokenInfo where
  wellFormed : Bool
  claims : Claims
  alg : String
  validForKey : String → Bool
  expired : Bool
  aud : Option String

/-- Python `a or b` on optional strings (`None`/empty are falsy). -/
def pyOrStr (a b : Option String) : Option String :=
  if a.elim false (· ≠ "") then a else b

def optTruthy (a : Option String) : Bool :=
  a.elim false (· ≠ "")

/-- PyJWT audience validation: a configured audience must equal the `aud`
claim; with no configured audience the token must carry no `aud` claim. -/
def audMatches (audience : Option String) (tok : TokenInfo) : Bool :=
  match audience with
  | some a => tok.aud = some a
  | none => tok.aud = none

/-- Verified `jwt.decode(token, key=key, options=..., algorithms=[alg],
audience=...)`: fails on malformed input, algorithm mismatch, bad
signature, expiry, or audience mismatch. -/
def jwtDecodeVerified (tok : TokenInfo) (key : String) (algs : List String)
    (audience : Option String) : Option Claims :=
  if tok.wellFormed ∧ tok.alg ∈ algs ∧ tok.validForKey key ∧ ¬tok.expired ∧
      audMatches audience tok then
    some tok.claims
  else none

/-- Unverified `jwt.decode(token, options={"verify_signature": False})`:
only well-formedness matters. -/
def jwtDecodeUnverified (tok : TokenInfo) : Option Claims :=
  if tok.wellFormed then some tok.claims else none

/-- `_decode_jwt`: `key = public_key or secret`; with a truthy key, decode
verified; otherwise decode unverified; the surrounding `try/except`
degrades every failure to the empty claim mapping and never raises. -/
def decodeJwt (cfg : JwtConfig) (tok : TokenInfo) : Claims :=
  match pyOrStr cfg.publicKey cfg.secret with
  | some k =>
    if k ≠ "" then (jwtDecodeVerified tok k [cfg.algorithm] cfg.audience).getD []
    else (jwtDecodeUnverified tok).getD []
  | none => (jwtDecodeUnverified tok).getD []

/-! ## Policy documents and the policy store (`_get_policy_for_tenant`)

A tenant's JSON policy file holds an `allowed_list` of rules, each with
an `agent_id` and an `allowed_tools` list.  A missing or falsy `agent_id`
is modelled by the empty string (the rule is skipped either way).  The
backing file system is a map from the lower-cased tenant name to its
parsed document; `none` covers both a missing file and a JSON parse
failure (the `except` branch leaves `policy_found` untouched). -/

structure RawRule where
  agent_id : String
  allowed_tools : List String
deriving DecidableEq, Repr

structure RawDoc where
  allowed_list : List RawRule
deriving DecidableEq, Repr

abbrev Fs := String → Option RawDoc

/-- One entry of `merged_agent_map`; `allowed_tools` is a Python `set`. -/
structure MergedRule where
  agent_id : String
  allowed_tools : Finset String
deriving DecidableEq

structure MergedPolicy where
  tenant : String
  allowed_list : List MergedRule
  valid_targets : Finset String
deriving DecidableEq

abbrev Cache := List (String × MergedPolicy)

/-- `merged_agent_map[clean_aid]` update: union the tool sets of an
existing entry in place, else append a fresh entry. -/
def insertRule (m : List MergedRule) (aid : String) (tools : Finset String) :
    List MergedRule :=
  match m with
  | [] => [⟨aid, tools⟩]
  | r :: rs =>
    if r.agent_id = aid then ⟨r.agent_id, r.allowed_tools ∪ tools⟩ :: rs
    else r :: insertRule rs aid tools

/-- The `for rule in raw_list` loop: skip falsy agent ids, strip, collect
the id into `valid_targets` and merge the tool list into the agent map. -/
def processDocRules (targets : Finset String) (m : List MergedRule) :
    List RawRule → Finset String × List MergedRule
  | [] => (targets, m)
  | r :: rest =>
    if r.agent_id ≠ "" then
      let aid := pyStrip r.agent_id
      processDocRules (insert aid targets) (insertRule m aid r.allowed_tools.toFinset) rest
    else processDocRules targets m rest

/-- The `for tenant_read in tenant_str.split(",")` loop: strip each
constituent, skip empties, read `iam/{tenant.lower()}.json`, and fold the
document's rules into the accumulators; the Boolean is `policy_found`. -/
def loadTenants (fs : Fs) : List String → Bool × Finset String × List MergedRule →
    Bool × Finset String × List MergedRule
  | [], acc => acc
  | tr :: rest, (found, targets, m) =>
    let clean := pyStrip tr
    if clean = "" then loadTenants fs rest (found, targets, m)
    else
      match fs (pyLower clean) with
      | some doc =>
        let (targets', m') := processDocRules targets m doc.allowed_list
        loadTenants fs rest (true, targets', m')
      | none => loadTenants fs rest (found, targets, m)

/-- `_get_policy_for_tenant`: serve from the cache when present, else
cold-load and merge the constituent tenants; cache only a found policy;
`none` models the falsy `{}` returned when no constituent tenant yields a
document.  The Boolean records whether the backing source was read. -/
def getPolicyForTenant (fs : Fs) (cache : Cache) (tenant_str : String) :
    Option MergedPolicy × Cache × Bool :=
  match cache.lookup tenant_str with
  | some p => (some p, cache, false)
  | none =>
    let (found, targets, m) := loadTenants fs (splitComma tenant_str) (false, ∅, [])
    if found then
      let p : MergedPolicy := ⟨tenant_str, m, targets⟩
      (some p, (tenant_str, p) :: cache, true)
    else (none, cache, true)

/-! ## Tool arguments -/

/-- A Python literal as it occurs in `tool_args` values. -/
inductive PyPrim where
  | pNone
  | pBool (b : Bool)
  | pInt (n : Int)
  | pStr (s : String)
deriving DecidableEq, Repr

abbrev Args := List (String × PyPrim)

def PyPrim.truthy : PyPrim → Bool
  | .pNone => false
  | .pBool b => b
  | .pInt n => n ≠ 0
  | .pStr s => s ≠ ""

def PyPrim.toStr : PyPrim → String
  | .pNone => "None"
  | .pBool b => if b then "True" else "False"
  | .pInt n => toString n
  | .pStr s => s

/-- `tool_args.get(key)`: absent keys read as `None`. -/
def argGet (args : Args) (key : String) : PyPrim :=
  (args.lookup key).getD .pNone

/-! ## Allowlist rule check (`_check_allowlist_rule`) -/

def checkAllowlistRule (agentId toolName : String) (policy : Option MergedPolicy)
    (tenantId : String) (toolArgs : Args) : Option String :=
  match policy with
  | none => some ("No policy defined for tenant '" ++ tenantId ++ "'.")
  | some p =>
    let myId := pyStrip agentId
    match p.allowed_list.find? (fun item => pyStrip item.agent_id = myId) with
    | none => some ("Access Denied: Agent '" ++ agentId ++ "' is not defined in the policy.")
    | some myRule =>
      if toolName ∉ myRule.allowed_tools then
        some ("Tool '" ++ toolName ++ "' is NOT allowed for agent '" ++ agentId ++ "'.")
      else if toolName = "call_remote_agent" then
        let target := argGet toolArgs "agent_name"
        if ¬target.truthy then some "Missing 'agent_name' argument."
        else
          let targetStrict := pyStrip target.toStr
          if targetStrict ∉ p.valid_targets then
            some ("Access Denied: Target '" ++ target.toStr ++
              "' is not a valid agent in this tenant.")
          else none
      else none

/-! ## Authorization entry point (`before_tool_callback`) and audit sink -/

/-- The JSON payload `_send_log` posts on a blocked tool call. -/
structure AuditRecord where
  agent_id : String
  type : String
  tool : String
  reason : String
  tenant : String
deriving DecidableEq, Repr

/-- Outcome of one `before_tool_callback` evaluation: the returned error
dict (`none` means the call is allowed), the policy cache afterwards, the
audit records posted, and whether the backing policy source was read. -/
structure CallbackResult where
  verdict : Option String
  cache : Cache
  audits : List AuditRecord
  fsRead : Bool
deriving DecidableEq

/-- `before_tool_callback` from the claim extraction onward (`claims` is
the value `_get_auth_claims` produced; the tool name is
`getattr(tool, "name", str(tool))`). -/
def beforeToolCallbackCore (agentId : String) (claims : Claims) (toolName : String)
    (toolArgs : Args) (fs : Fs) (cache : Cache) : CallbackResult :=
  let t := extractTenantFromClaims claims
  if t = "" ∨ startsWithList "<".data t.data then
    ⟨some "Access Denied: No valid tenant found.", cache, [], false⟩
  else
    match getPolicyForTenant fs cache t with
    | (none, cache', read) =>
      ⟨some ("Access Denied: No policy found for tenant '" ++ t ++ "'."), cache', [], read⟩
    | (some p, cache', read) =>
      match checkAllowlistRule agentId toolName (some p) t toolArgs with
      | some violation =>
        ⟨some ("Policy Violation: " ++ violation), cache',
          [⟨agentId, "tool_blocked", toolName, violation, t⟩], read⟩
      | none => ⟨none, cache', [], read⟩

/-- `_send_log`: posts the payload with `timeout=2` and swallows every
transport outcome; the caller observes nothing. -/
def sendLog (post : AuditRecord → Nat → Except Unit Unit) (payload : AuditRecord) : Unit :=
  match post payload 2 with
  | .ok _ => ()
  | .error _ => ()

/-! ## Call contexts as heaps

A call context is an arbitrary, possibly cyclic Python object graph.
Values are `None`, strings, or references into a heap of `n` nodes; each
node is a dict (ordered fields), a plain object (named attributes), or a
sequence (`list`/`tuple`/`set`, with a fixed iteration order).  Object
identity — what `id()` and the `_visited` set operate on — is the heap
address, which is what makes cyclic contexts expressible. -/

inductive NodeKind where
  | dict
  | obj
  | seq
deriving DecidableEq, Repr

inductive PyVal (n : Nat) where
  | vNone
  | vStr (s : String)
  | addr (a : Fin n)
deriving DecidableEq, Repr

structure PyNode (n : Nat) where
  kind : NodeKind
  fields : List (String × PyVal n)
  elems : List (PyVal n)
deriving DecidableEq

abbrev Heap (n : Nat) := Fin n → PyNode n

/-- Python truthiness of a container node: empty dicts and sequences are
falsy, plain objects are always truthy. -/
def nodeFalsy {n : Nat} (nd : PyNode n) : Bool :=
  match nd.kind with
  | .dict => nd.fields.isEmpty
  | .seq => nd.elems.isEmpty
  | .obj => false

def valTruthy {n : Nat} (h : Heap n) : PyVal n → Bool
  | .vNone => false
  | .vStr s => s ≠ ""
  | .addr a => ¬nodeFalsy (h a)

/-- `str(value)`.  The `repr` of a heap object is opaque and never a
bearer token; a fixed placeholder stands for it. -/
def pyValStr {n : Nat} (h : Heap n) : PyVal n → String
  | .vNone => "None"
  | .vStr s => s
  | .addr a => if (h a).kind = .obj then "<object>" else "<container>"

def sanitizeVal {n : Nat} (h : Heap n) (v : PyVal n) : String :=
  if valTruthy h v then sanitizeBearer (pyValStr h v) else ""

/-- `getattr(value, name, None)`: only plain objects expose attributes. -/
def pyGetattr {n : Nat} (h : Heap n) (v : PyVal n) (name : String) : PyVal n :=
  match v with
  | .addr a => if (h a).kind = .obj then ((h a).fields.lookup name).getD .vNone else .vNone
  | _ => .vNone

def pyHasattr {n : Nat} (h : Heap n) (v : PyVal n) (name : String) : Bool :=
  match v with
  | .addr a => (h a).kind = .obj ∧ ((h a).fields.lookup name).isSome
  | _ => false

def isDictV {n : Nat} (h : Heap n) (v : PyVal n) : Bool :=
  match v with
  | .addr a => (h a).kind = .dict
  | _ => false

def dictLookup {n : Nat} (h : Heap n) (v : PyVal n) (k : String) : Option (PyVal n) :=
  match v with
  | .addr a => if (h a).kind = .dict then (h a).fields.lookup k else none
  | _ => none

/-! ## Recursive container walk (`_extract_token_from_container`) -/

/-- `headers = container.get("headers") or container`, plus the fate of
the subsequent subscripting: when the `headers` entry is truthy but not a
dict, the `headers.get(...)` / `key in headers` calls raise
(`AttributeError`/`TypeError`), modelled by `Except.error`. -/
def headersTarget {n : Nat} (h : Heap n) (fields : List (String × PyVal n)) :
    Except Unit (List (String × PyVal n)) :=
  match fields.lookup "headers" with
  | some hv =>
    if valTruthy h hv then
      match hv with
      | .addr b => if (h b).kind = .dict then .ok (h b).fields else .error ()
      | _ => .error ()
    else .ok fields
  | none => .ok fields

/-- `for key in ("Authorization", "authorization", "auth_token", "token"):
if key in headers` — first *present* key wins, even with a falsy value. -/
def firstPresentKey {n : Nat} (fields : List (String × PyVal n)) : Option (PyVal n) :=
  match fields.lookup "Authorization" with
  | some v => some v
  | none =>
    match fields.lookup "authorization" with
    | some v => some v
    | none =>
      match fields.lookup "auth_token" with
      | some v => some v
      | none => fields.lookup "token"

/-- The nested-key recursion targets: `headers.get(k)` for the six nested
keys (`None` when absent). -/
def nestedVals {n : Nat} (fields : List (String × PyVal n)) : List (PyVal n) :=
  ["headers", "metadata", "context", "raw_request", "request", "envelope"].map
    (fun k => (fields.lookup k).getD .vNone)

/-- The attribute recursion targets (note: no `envelope` here, unlike the
nested-key list). -/
def attrVals {n : Nat} (fields : List (String × PyVal n)) : List (PyVal n) :=
  ["headers", "metadata", "context", "raw_request", "request"].map
    (fun k => (fields.lookup k).getD .vNone)

/-- A unit of pending walk work: one value, or a list of values walked in
order with the shared, mutated `_visited` set threaded through. -/
inductive WalkItem (n : Nat) where
  | val (v : PyVal n)
  | vals (vs : List (PyVal n))
deriving DecidableEq

/-- `_extract_token_from_container`: falsy containers and strings yield
`""`; an already-visited node yields `""`; otherwise the node is marked
visited and scanned.  The attribute loop contributes nothing on dict and
sequence nodes (they have no such attributes), so it is elided there.
The visited set only ever grows, and each recursive call descends with a
set containing `insert a visited`; the explicit union keeps that growth
syntactic, which is exactly the termination argument of the Python code's
identity tracking. -/
def walk {n : Nat} (h : Heap n) : WalkItem n → Finset (Fin n) →
    Except Unit (String × Finset (Fin n))
  | .val .vNone, visited => .ok ("", visited)
  | .val (.vStr _), visited => .ok ("", visited)
  | .val (.addr a), visited =>
    if nodeFalsy (h a) then .ok ("", visited)
    else if hvis : a ∈ visited then .ok ("", visited)
    else
      match (h a).kind with
      | .dict =>
        match headersTarget h (h a).fields with
        | .error _ => .error ()
        | .ok fields =>
          match firstPresentKey fields with
          | some v0 => .ok (sanitizeVal h v0, insert a visited)
          | none => walk h (.vals (nestedVals fields ++ fields.map Prod.snd)) (insert a visited)
      | .seq => walk h (.vals (h a).elems) (insert a visited)
      | .obj => walk h (.vals (attrVals (h a).fields)) (insert a visited)
  | .vals [], visited => .ok ("", visited)
  | .vals (v :: vs), visited =>
    match walk h (.val v) visited with
    | .error e => .error e
    | .ok (s, vis1) =>
      if s ≠ "" then .ok (s, vis1)
      else walk h (.vals vs) (vis1 ∪ visited)
termination_by item visited => (n - visited.card, sizeOf item)
decreasing_by
all_goals simp_wf
· apply Prod.Lex.left
  have hc : (insert a visited).card = visited.card + 1 :=
    Finset.card_insert_of_not_mem hvis
  have hle : (insert a visited).card ≤ n := by
    simpa using Finset.card_le_univ (insert a visited)
  omega
· apply Prod.Lex.left
  have hc : (insert a visited).card = visited.card + 1 :=
    Finset.card_insert_of_not_mem hvis
  have hle : (insert a visited).card ≤ n := by
    simpa using Finset.card_le_univ (insert a visited)
  omega
· apply Prod.Lex.left
  have hc : (insert a visited).card = visited.card + 1 :=
    Finset.card_insert_of_not_mem hvis
  have hle : (insert a visited).card ≤ n := by
    simpa using Finset.card_le_univ (insert a visited)
  omega
· apply Prod.Lex.right
  simp
  omega
· have hle : visited.card ≤ (vis1 ∪ visited).card :=
    Finset.card_le_card Finset.subset_union_right
  have hsub : n - (vis1 ∪ visited).card ≤ n - visited.card :=
    Nat.sub_le_sub_left hle n
  rcases Nat.lt_or_ge (n - (vis1 ∪ visited).card) (n - visited.card) with hlt | hge
  · exact Prod.Lex.left _ _ hlt
  · have heq : n - (vis1 ∪ visited).card = n - visited.card := le_antisymm hsub hge
    rw [heq]
    apply Prod.Lex.right
    simp

def extractTokenFromContainer {n : Nat} (h : Heap n) (v : PyVal n) : Except Unit String :=
  (walk h (.val v) ∅).map Prod.fst

/-! ## Credential locator (`_extract_auth_token`) -/

/-- Locator-level state: the process-local `ContextVar` tunnel, the
captured hint, and the last successfully extracted token (mutations of
the latter two happen outside the entry points modelled here). -/
structure LocState where
  tunnel : Option String
  hint : Option String
  last : Option String

/-- The `possible_states` collection: `state`, truthy `session`'s
`state`, the truthy nested `context`'s `state` and `session.state`, and a
dict-valued `attributes`. -/
def possibleStates {n : Nat} (h : Heap n) (ctx : PyVal n) : List (PyVal n) :=
  (if pyHasattr h ctx "state" then [pyGetattr h ctx "state"] else []) ++
  (if pyHasattr h ctx "session" then
    (let session := pyGetattr h ctx "session"
     if valTruthy h session ∧ pyHasattr h session "state" then
       [pyGetattr h session "state"]
     else [])
   else []) ++
  (if pyHasattr h ctx "context" then
    (let inner := pyGetattr h ctx "context"
     if valTruthy h inner then
       (if pyHasattr h inner "state" then [pyGetattr h inner "state"] else []) ++
       (if pyHasattr h inner "session" ∧
           pyHasattr h (pyGetattr h inner "session") "state" then
         [pyGetattr h (pyGetattr h inner "session") "state"]
        else [])
     else [])
   else []) ++
  (if pyHasattr h ctx "attributes" ∧ isDictV h (pyGetattr h ctx "attributes") then
    [pyGetattr h ctx "attributes"]
   else [])

/-- The `for state in possible_states` loop: falsy states are skipped; a
dict state returns its truthy `auth_token` entry sanitized; a non-dict
state returns its truthy `auth_token` attribute sanitized. -/
def scanStates {n : Nat} (h : Heap n) : List (PyVal n) → Option String
  | [] => none
  | st :: rest =>
    if ¬valTruthy h st then scanStates h rest
    else if isDictV h st then
      match dictLookup h st "auth_token" with
      | some tok => if valTruthy h tok then some (sanitizeVal h tok) else scanStates h rest
      | none => scanStates h rest
    else if pyHasattr h st "auth_token" then
      (let tok := pyGetattr h st "auth_token"
       if valTruthy h tok then some (sanitizeVal h tok) else scanStates h rest)
    else scanStates h rest

/-- `_sanitize_bearer` applied to a raw `tool_args` value. -/
def sanitizePrim (p : PyPrim) : String :=
  if p.truthy then sanitizeBearer p.toStr else ""

/-- The `for candidate in candidates` loop: the first candidate whose
sanitized form is non-empty, else `""`. -/
def firstNonEmpty (l : List String) : String :=
  ((l.filter (· ≠ "")).head?).getD ""

/-- `_extract_auth_token`: the direct tunnel, then the state containers,
then one candidate list — the four argument keys, the container walk of
the context and of its `metadata` attribute (whose exceptions propagate),
the truthy captured hint, and the truthy last token — returning the first
candidate with a non-empty sanitized form, else `""`. -/
def extractAuthToken {n : Nat} (loc : LocState) (h : Heap n) (ctx : PyVal n)
    (args : Args) : Except Unit String :=
  if optTruthy loc.tunnel then .ok (sanitizeBearer (loc.tunnel.getD ""))
  else
    match scanStates h (possibleStates h ctx) with
    | some t => .ok t
    | none => do
      let w1 ← extractTokenFromContainer h ctx
      let w2 ← extractTokenFromContainer h (pyGetattr h ctx "metadata")
      let cands : List String :=
        [sanitizePrim (argGet args "auth_token"), sanitizePrim (argGet args "token"),
         sanitizePrim (argGet args "Authorization"),
         sanitizePrim (argGet args "authorization"),
         sanitizeBearer w1, sanitizeBearer w2] ++
        (if optTruthy loc.hint then [sanitizeBearer (loc.hint.getD "")] else []) ++
        (if optTruthy loc.last then [sanitizeBearer (loc.last.getD "")] else [])
      .ok (firstNonEmpty cands)

/-- `_get_auth_claims` (the token-inspection logging and the
`_last_auth_token` bookkeeping are print/log effects with no bearing on
the returned claims).  The wire format of a token string is resolved by
the environment map `env`. -/
def getAuthClaims {n : Nat} (env : String → TokenInfo) (cfg : JwtConfig)
    (loc : LocState) (h : Heap n) (ctx : PyVal n) (args : Args) : Except Unit Claims := do
  let token ← extractAuthToken loc h ctx args
  if token = "" then return []
  else return decodeJwt cfg (env token)

/-! ## General tool rules (`_check_tool_rule`) -/

/-- A `required_roles` / `required_role` value: a string or a list. -/
inductive RolesSpec where
  | str (s : String)
  | list (l : List String)
deriving DecidableEq, Repr

def rolesSpecTruthy : Option RolesSpec → Bool
  | none => false
  | some (.str s) => s ≠ ""
  | some (.list l) => l ≠ []

/-- `_normalize_required_roles`. -/
def normalizeRequiredRoles : Option RolesSpec → List String
  | none => []
  | some (.str s) =>
    if s = "" then []
    else if pyStrip s ≠ "" then [pyLower (pyStrip s)] else []
  | some (.list l) =>
    if l = [] then []
    else (l.filter (fun r => pyStrip r ≠ "")).map (fun r => pyLower (pyStrip r))

/-- `str.split()` on whitespace, dropping empty groups. -/
def pySplitWs (s : String) : List String :=
  ((List.splitOnP pyWs s.data).filter (· ≠ [])).map String.mk

def rolesFromVal : Option ClaimVal → List String
  | some (.str s) =>
    ((pySplitWs s).filter (fun i => pyStrip i ≠ "")).map (fun i => pyLower (pyStrip i))
  | some (.list l) =>
    (l.filter (fun i => pyStrip i ≠ "")).map (fun i => pyLower (pyStrip i))
  | none => []

/-- `_extract_roles_from_claims`: pool the five role-bearing keys. -/
def extractRolesFromClaims (claims : Claims) : List String :=
  rolesFromVal (claims.lookup "roles") ++ rolesFromVal (claims.lookup "role") ++
  rolesFromVal (claims.lookup "permissions") ++ rolesFromVal (claims.lookup "scopes") ++
  rolesFromVal (claims.lookup "scope")

/-- `_roles_satisfied`: non-empty intersection after lower-casing. -/
def rolesSatisfied (userRoles requiredRoles : List String) : Bool :=
  requiredRoles.any (fun r => pyLower r ∈ userRoles.map pyLower)

structure ToolRule where
  allowed_agents : List String
  max_task_length : Option Int
  requires_auth : PyPrim
  required_roles : Option RolesSpec
  required_role : Option RolesSpec
  max_results : Option Int

/-- The string coercion of the `requires_auth` flag. -/
def requiresAuthFlag (p : PyPrim) : Bool :=
  match p with
  | .pStr s => pyLower s ∉ ["false", "0", "off"]
  | _ => p.truthy

def primInStrList (p : PyPrim) (l : List String) : Bool :=
  match p with
  | .pStr s => s ∈ l
  | _ => false

def pyOrPrim (a b : PyPrim) : PyPrim :=
  if a.truthy then a else b

/-- `_check_tool_rule`: the five checks in source order with early
returns, producing the violation message (`none` = pass).  (`task`
values that are not strings are outside the policy JSON schema and read
as `""`.) -/
def checkToolRuleVerdict {n : Nat} (env : String → TokenInfo) (cfg : JwtConfig)
    (loc : LocState) (h : Heap n) (toolName : String) (toolArgs : Args)
    (rule : ToolRule) (ctx : PyVal n) : Except Unit (Option String) := do
  if rule.allowed_agents ≠ [] then
    let agentName := pyOrPrim (argGet toolArgs "agent_name") (argGet toolArgs "agent")
    if agentName.truthy ∧ ¬primInStrList agentName rule.allowed_agents then
      return some ("Agent '" ++ agentName.toStr ++ "' is not allowed for " ++ toolName)
  match rule.max_task_length with
  | some m =>
    let task : String := match argGet toolArgs "task" with
      | .pStr s => s
      | _ => ""
    if (task.length : Int) > m then
      return some ("Task length (" ++ toString task.length ++ ") exceeds maximum (" ++
        toString m ++ ")")
  | none => pure ()
  if requiresAuthFlag rule.requires_auth then
    let tok ← extractAuthToken loc h ctx toolArgs
    if tok = "" then
      return some "Authentication required for this tool"
  let requiredRoles := if rolesSpecTruthy rule.required_roles then rule.required_roles
    else rule.required_role
  let normalized := normalizeRequiredRoles requiredRoles
  if normalized ≠ [] then
    let claims ← getAuthClaims env cfg loc h ctx toolArgs
    let userRoles := extractRolesFromClaims claims
    if userRoles = [] then
      return some "Role information missing from JWT token"
    if ¬rolesSatisfied userRoles normalized then
      return some ("Tool '" ++ toolName ++ "' requires role(s): " ++
        joinCommaSpace normalized)
  match rule.max_results with
  | some mr =>
    match argGet toolArgs "limit" with
    | .pInt limit =>
      if limit > mr then
        return some ("Requested limit (" ++ toString limit ++ ") exceeds maximum (" ++
          toString mr ++ ")")
    | _ => pure ()
  | none => pure ()
  return none

/-- `_check_tool_rule` as observed by the caller: the verdict together
with the argument mapping afterwards.  The source body contains no write
to `tool_args`, so the mapping is the one that came in. -/
def checkToolRule {n : Nat} (env : String → TokenInfo) (cfg : JwtConfig)
    (loc : LocState) (h : Heap n) (toolName : String) (toolArgs : Args)
    (rule : ToolRule) (ctx : PyVal n) : Except Unit (Option String × Args) := do
  let verdict ← checkToolRuleVerdict env cfg loc h toolName toolArgs rule ctx
  return (verdict, toolArgs)

/-! ## Characterizing the merge

`docAgents` and `docTools` read the agent identifiers and per-agent tool
sets directly off one raw document; `ruleTools` reads the tool set of an
agent off a merged agent map.  The lemmas below show the store's fold
computes exactly the per-agent unions. -/

def docAgents : List RawRule → Finset String
  | [] => ∅
  | r :: rest =>
    if r.agent_id ≠ "" then insert (pyStrip r.agent_id) (docAgents rest)
    else docAgents rest

def docTools (a : String) : List RawRule → Finset String
  | [] => ∅
  | r :: rest =>
    if r.agent_id ≠ "" ∧ pyStrip r.agent_id = a then
      r.allowed_tools.toFinset ∪ docTools a rest
    else docTools a rest

def ruleTools (l : List MergedRule) (a : String) : Option (Finset String) :=
  (l.find? (fun r => r.agent_id = a)).map MergedRule.allowed_tools

def unionOpt : Option (Finset String) → Option (Finset String) → Option (Finset String)
  | none, b => b
  | some x, none => some x
  | some x, some y => some (x ∪ y)

theorem ruleTools_insertRule (m : List MergedRule) (aid : String) (ts : Finset String)
    (a : String) :
    ruleTools (insertRule m aid ts) a =
      if a = aid then some ((ruleTools m a).getD ∅ ∪ ts) else ruleTools m a := by
  induction m with
  | nil =>
    by_cases h : a = aid
    · subst h; simp [insertRule, ruleTools, List.find?]
    · simp [insertRule, ruleTools, List.find?, h, Ne.symm h]
  | cons r rs ih =>
    by_cases hr : r.agent_id = aid
    · by_cases ha : a = aid
      · subst ha
        simp [insertRule, hr, ruleTools, List.find?]
      · have hra : r.agent_id ≠ a := fun h => ha (h ▸ hr ▸ rfl)
        simp [insertRule, hr, ruleTools, List.find?, hra, ha, Ne.symm ha]
    · by_cases hra : r.agent_id = a
      · have ha : a ≠ aid := fun h => hr (hra.trans h)
        simp [insertRule, hr, ruleTools, List.find?, hra, ha]
      · by_cases ha : a = aid <;>
          simpa [insertRule, hr, ruleTools, List.find?, hra, ha] using ih

theorem docTools_of_not_mem (a : String) (rules : List RawRule)
    (h : a ∉ docAgents rules) : docTools a rules = ∅ := by
  induction rules with
  | nil => rfl
  | cons r rest ih =>
    by_cases hr : r.agent_id = ""
    · simp [docAgents, hr] at h
      simpa [docTools, hr] using ih h
    · simp [docAgents, hr] at h
      have h2 : pyStrip r.agent_id ≠ a := fun hh => h.1 hh.symm
      simp [docTools, hr, h2, ih h.2]

theorem processDocRules_fst (targets : Finset String) (m : List MergedRule)
    (rules : List RawRule) :
    (processDocRules targets m rules).1 = targets ∪ docAgents rules := by
  induction rules generalizing targets m with
  | nil => simp [processDocRules, docAgents]
  | cons r rest ih =>
    by_cases hr : r.agent_id = ""
    · simp [processDocRules, docAgents, hr, ih]
    · simp only [processDocRules, docAgents, hr, if_pos, ne_eq, not_false_iff, if_true, ih]
      rw [Finset.union_insert, Finset.insert_union]

theorem processDocRules_ruleTools (targets : Finset String) (m : List MergedRule)
    (rules : List RawRule) (a : String) :
    ruleTools (processDocRules targets m rules).2 a =
      if a ∈ docAgents rules then some ((ruleTools m a).getD ∅ ∪ docTools a rules)
      else ruleTools m a := by
  induction rules generalizing targets m with
  | nil => simp [processDocRules, docAgents]
  | cons r rest ih =>
    by_cases hr : r.agent_id = ""
    · simp [processDocRules, docAgents, docTools, hr, ih]
    · by_cases ha : a = pyStrip r.agent_id
      · subst ha
        simp only [processDocRules, hr, ne_eq, not_false_iff, if_true, ih,
          ruleTools_insertRule, docAgents, docTools]
        by_cases hmem : pyStrip r.agent_id ∈ docAgents rest
        · simp [hmem, hr, Finset.union_assoc]
        · simp [hmem, hr, docTools_of_not_mem _ _ hmem]
      · have ha2 : pyStrip r.agent_id ≠ a := fun h => ha h.symm
        simp only [processDocRules, hr, ne_eq, not_false_iff, if_true, ih,
          ruleTools_insertRule, docAgents, docTools]
        by_cases hmem : a ∈ docAgents rest <;> simp [hmem, ha, ha2, hr]

/-! ## Claim theorems -/

/-- C1: for every claim set that lacks all tenant-bearing keys (`tenant`,
`tid`, `tenant_id`, `org_id`), `before_tool_callback` returns the
"Access Denied: No valid tenant found." deny regardless of the agent
identifier or the tool name, leaving the policy cache untouched, reading
no policy source, emitting no audit record, and reaching no later rule
check. -/
theorem no_tenant_always_denies (agentId : String) (claims : Claims) (toolName : String)
    (toolArgs : Args) (fs : Fs) (cache : Cache)
    (h1 : claims.lookup "tenant" = none) (h2 : claims.lookup "tid" = none)
    (h3 : claims.lookup "tenant_id" = none) (h4 : claims.lookup "org_id" = none) :
    beforeToolCallbackCore agentId claims toolName toolArgs fs cache =
      ⟨some "Access Denied: No valid tenant found.", cache, [], false⟩ := by
  have ht : extractTenantFromClaims claims = "<no_tenant>" := by
    simp [extractTenantFromClaims, tenantFallback, h1, h2, h3, h4]
  simp [beforeToolCallbackCore, ht, startsWithList]

/-- Witness for C1: a claim set holding only `sub`. -/
theorem no_tenant_always_denies_witness :
    beforeToolCallbackCore "agentA" [("sub", .str "a")] "toolX" [] (fun _ => none) [] =
      ⟨some "Access Denied: No valid tenant found.", [], [], false⟩ :=
  no_tenant_always_denies "agentA" [("sub", .str "a")] "toolX" [] (fun _ => none) []
    rfl rfl rfl rfl

/-- C2: with a resolved tenant whose policy document exists, an agent
identifier that (after stripping, case-sensitively) matches no
`agent_id` of the merged `allowed_list` is denied as not defined in the
policy; an agent whose matched rule lacks the exact requested tool name
is denied as tool-not-allowed; the agent check runs first and both
short-circuit. -/
theorem agent_and_tool_allowlist_denials (agentId toolName : String) (claims : Claims)
    (toolArgs : Args) (fs : Fs) (cache : Cache) (t : String) (p : MergedPolicy)
    (c' : Cache) (b : Bool)
    (ht : extractTenantFromClaims claims = t) (ht1 : t ≠ "")
    (ht2 : startsWithList "<".data t.data = false)
    (hp : getPolicyForTenant fs cache t = (some p, c', b)) :
    ((∀ r ∈ p.allowed_list, pyStrip r.agent_id ≠ pyStrip agentId) →
      (beforeToolCallbackCore agentId claims toolName toolArgs fs cache).verdict =
        some ("Policy Violation: " ++ ("Access Denied: Agent '" ++ agentId ++
          "' is not defined in the policy."))) ∧
    (∀ r, p.allowed_list.find? (fun item => pyStrip item.agent_id = pyStrip agentId) =
        some r → toolName ∉ r.allowed_tools →
      (beforeToolCallbackCore agentId claims toolName toolArgs fs cache).verdict =
        some ("Policy Violation: " ++ ("Tool '" ++ toolName ++
          "' is NOT allowed for agent '" ++ agentId ++ "'."))) := by
  constructor
  · intro hnone
    have hfind : p.allowed_list.find? (fun item => pyStrip item.agent_id = pyStrip agentId)
        = none := by
      rw [List.find?_eq_none]
      intro r hr
      simp [hnone r hr]
    simp [beforeToolCallbackCore, ht, ht1, ht2, hp, checkAllowlistRule, hfind]
  · intro r hfind htool
    simp [beforeToolCallbackCore, ht, ht1, ht2, hp, checkAllowlistRule, hfind, htool]

/-- Witness for C2: tenant `acme` grants only agent `Bob` the tool `t1`;
agent `Alice` is denied as undefined, and `Bob` calling `t2` is denied as
tool-not-allowed. -/
theorem agent_and_tool_allowlist_denials_witness :
    (beforeToolCallbackCore "Alice" [("tenant", .str "acme")] "t1" []
        (fun s => if s = "acme" then some ⟨[⟨"Bob", ["t1"]⟩]⟩ else none) []).verdict =
      some "Policy Violation: Access Denied: Agent 'Alice' is not defined in the policy." ∧
    (beforeToolCallbackCore "Bob" [("tenant", .str "acme")] "t2" []
        (fun s => if s = "acme" then some ⟨[⟨"Bob", ["t1"]⟩]⟩ else none) []).verdict =
      some "Policy Violation: Tool 't2' is NOT allowed for agent 'Bob'." := by
  constructor
  · exact (agent_and_tool_allowlist_denials "Alice" "t1" [("tenant", .str "acme")] []
      (fun s => if s = "acme" then some ⟨[⟨"Bob", ["t1"]⟩]⟩ else none) [] "acme"
      ⟨"acme", [⟨"Bob", {"t1"}⟩], {"Bob"}⟩ [("acme", ⟨"acme", [⟨"Bob", {"t1"}⟩], {"Bob"}⟩)]
      true rfl (by decide) (by decide) (by decide)).1 (by decide)
  · exact (agent_and_tool_allowlist_denials "Bob" "t2" [("tenant", .str "acme")] []
      (fun s => if s = "acme" then some ⟨[⟨"Bob", ["t1"]⟩]⟩ else none) [] "acme"
      ⟨"acme", [⟨"Bob", {"t1"}⟩], {"Bob"}⟩ [("acme", ⟨"acme", [⟨"Bob", {"t1"}⟩], {"Bob"}⟩)]
      true rfl (by decide) (by decide) (by decide)).2 ⟨"Bob", {"t1"}⟩ (by decide) (by decide)

/-- C3: the claim decoder is total; with a truthy verification key
configured, any verification failure (malformed token, algorithm
mismatch, bad signature, expiry, audience mismatch) yields the empty
claim mapping, and with no truthy key configured a well-formed token's
claims are decoded without signature verification. -/
theorem decode_jwt_fail_closed_or_trusting (cfg : JwtConfig) (tok : TokenInfo) :
    (∀ k, pyOrStr cfg.publicKey cfg.secret = some k → k ≠ "" →
      (tok.wellFormed = false ∨ tok.alg ≠ cfg.algorithm ∨ tok.validForKey k = false ∨
        tok.expired = true ∨ audMatches cfg.audience tok = false) →
      decodeJwt cfg tok = []) ∧
    (optTruthy (pyOrStr cfg.publicKey cfg.secret) = false → tok.wellFormed = true →
      decodeJwt cfg tok = tok.claims) := by
  constructor
  · intro k hk hk2 hfail
    rcases hfail with h | h | h | h | h <;>
      simp [decodeJwt, hk, hk2, jwtDecodeVerified, h]
  · intro hkey hwf
    match hk : pyOrStr cfg.publicKey cfg.secret with
    | some k =>
      rw [hk] at hkey
      simp [optTruthy] at hkey
      simp [decodeJwt, hk, hkey, jwtDecodeUnverified, hwf]
    | none => simp [decodeJwt, hk, jwtDecodeUnverified, hwf]

/-- Witness for C3: no key configured, an unsigned well-formed token with
`tenant="X"`, `sub="a"` decodes to its claims, and the tenant resolver
then reads tenant `X` off them, so authorization proceeds on these
claims. -/
theorem decode_jwt_fail_closed_or_trusting_witness :
    decodeJwt ⟨none, none, "HS256", none⟩
        ⟨true, [("tenant", .str "X"), ("sub", .str "a")], "none", fun _ => false, false, none⟩ =
      [("tenant", .str "X"), ("sub", .str "a")] ∧
    extractTenantFromClaims [("tenant", .str "X"), ("sub", .str "a")] = "X" := by
  constructor
  · exact (decode_jwt_fail_closed_or_trusting ⟨none, none, "HS256", none⟩
      ⟨true, [("tenant", .str "X"), ("sub", .str "a")], "none", fun _ => false, false,
        none⟩).2 rfl rfl
  · rfl

/-- C4: a list-valued tenant claim `["A","B"]` resolves to the Tenant Key
`"A,B"`; the policy resolved for `"A,B"` merges tenant `A`'s and tenant
`B`'s individually-loaded documents — per-agent tool sets are unioned by
agent identifier, the Valid Target Set is the union of the constituent
target sets and coincides with the merged document's agent identifiers —
and the merge is cached under the key `"A,B"` only, so `"B,A"` stays a
distinct, separately-loaded cache entry. -/
theorem multi_tenant_merge (claims : Claims) (fs : Fs) (dA dB : RawDoc)
    (hcl : claims.lookup "tenant" = some (.list ["A", "B"]))
    (hA : fs "a" = some dA) (hB : fs "b" = some dB) :
    extractTenantFromClaims claims = "A,B" ∧
    ∃ p pA pB cAB cA cB,
      getPolicyForTenant fs [] "A,B" = (some p, cAB, true) ∧
      getPolicyForTenant fs [] "A" = (some pA, cA, true) ∧
      getPolicyForTenant fs [] "B" = (some pB, cB, true) ∧
      (∀ ag, ruleTools p.allowed_list ag =
        unionOpt (ruleTools pA.allowed_list ag) (ruleTools pB.allowed_list ag)) ∧
      p.valid_targets = pA.valid_targets ∪ pB.valid_targets ∧
      (∀ ag, (ruleTools p.allowed_list ag).isSome ↔ ag ∈ p.valid_targets) ∧
      cAB.lookup "A,B" = some p ∧ cAB.lookup "B,A" = none ∧
      (getPolicyForTenant fs cAB "B,A").2.2 = true := by
  have hsplitAB : splitComma "A,B" = ["A", "B"] := by decide
  have hsplitA : splitComma "A" = ["A"] := by decide
  have hsplitB : splitComma "B" = ["B"] := by decide
  have hsplitBA : splitComma "B,A" = ["B", "A"] := by decide
  have eA : pyStrip "A" = "A" := by decide
  have eB : pyStrip "B" = "B" := by decide
  have eA2 : pyLower "A" = "a" := by decide
  have eB2 : pyLower "B" = "b" := by decide
  refine ⟨by simp [extractTenantFromClaims, hcl, joinComma], ?_⟩
  rcases hPA : processDocRules ∅ [] dA.allowed_list with ⟨tA, mA⟩
  rcases hPB : processDocRules ∅ [] dB.allowed_list with ⟨tB, mB⟩
  rcases hPAB : processDocRules tA mA dB.allowed_list with ⟨tAB, mAB⟩
  have hLAB : loadTenants fs ["A", "B"] (false, ∅, []) = (true, tAB, mAB) := by
    simp [loadTenants, eA, eB, eA2, eB2, hA, hB, hPA, hPAB]
  have hLA : loadTenants fs ["A"] (false, ∅, []) = (true, tA, mA) := by
    simp [loadTenants, eA, eA2, hA, hPA]
  have hLB : loadTenants fs ["B"] (false, ∅, []) = (true, tB, mB) := by
    simp [loadTenants, eB, eB2, hB, hPB]
  refine ⟨⟨"A,B", mAB, tAB⟩, ⟨"A", mA, tA⟩, ⟨"B", mB, tB⟩,
    [("A,B", ⟨"A,B", mAB, tAB⟩)], [("A", ⟨"A", mA, tA⟩)], [("B", ⟨"B", mB, tB⟩)],
    ?_, ?_, ?_, ?_, ?_, ?_, ?_, ?_, ?_⟩
  · simp [getPolicyForTenant, hsplitAB, hLAB]
  · simp [getPolicyForTenant, hsplitA, hLA]
  · simp [getPolicyForTenant, hsplitB, hLB]
  · intro ag
    have h1 : ruleTools mA ag =
        if ag ∈ docAgents dA.allowed_list then some (docTools ag dA.allowed_list)
        else none := by
      have := processDocRules_ruleTools ∅ [] dA.allowed_list ag
      rw [hPA] at this
      simpa [ruleTools] using this
    have h2 : ruleTools mB ag =
        if ag ∈ docAgents dB.allowed_list then some (docTools ag dB.allowed_list)
        else none := by
      have := processDocRules_ruleTools ∅ [] dB.allowed_list ag
      rw [hPB] at this
      simpa [ruleTools] using this
    have h3 : ruleTools mAB ag =
        if ag ∈ docAgents dB.allowed_list
        then some ((ruleTools mA ag).getD ∅ ∪ docTools ag dB.allowed_list)
        else ruleTools mA ag := by
      have := processDocRules_ruleTools tA mA dB.allowed_list ag
      rw [hPAB] at this
      exact this
    by_cases hmA : ag ∈ docAgents dA.allowed_list <;>
      by_cases hmB : ag ∈ docAgents dB.allowed_list <;>
        simp [h1, h2, h3, hmA, hmB, unionOpt]
  · have h1 : tA = docAgents dA.allowed_list := by
      have := processDocRules_fst ∅ [] dA.allowed_list
      rw [hPA] at this
      simpa using this
    have h2 : tB = docAgents dB.allowed_list := by
      have := processDocRules_fst ∅ [] dB.allowed_list
      rw [hPB] at this
      simpa using this
    have h3 : tAB = tA ∪ docAgents dB.allowed_list := by
      have := processDocRules_fst tA mA dB.allowed_list
      rw [hPAB] at this
      simpa using this
    simp [h1, h2, h3]
  · intro ag
    have h1 : ruleTools mA ag =
        if ag ∈ docAgents dA.allowed_list then some (docTools ag dA.allowed_list)
        else none := by
      have := processDocRules_ruleTools ∅ [] dA.allowed_list ag
      rw [hPA] at this
      simpa [ruleTools] using this
    have h3 : ruleTools mAB ag =
        if ag ∈ docAgents dB.allowed_list
        then some ((ruleTools mA ag).getD ∅ ∪ docTools ag dB.allowed_list)
        else ruleTools mA ag := by
      have := processDocRules_ruleTools tA mA dB.allowed_list ag
      rw [hPAB] at this
      exact this
    have h4 : tAB = docAgents dA.allowed_list ∪ docAgents dB.allowed_list := by
      have hfstA := processDocRules_fst ∅ [] dA.allowed_list
      rw [hPA] at hfstA
      have hfstAB := processDocRules_fst tA mA dB.allowed_list
      rw [hPAB] at hfstAB
      simp at hfstA
      simpa [hfstA] using hfstAB
    by_cases hmA : ag ∈ docAgents dA.allowed_list <;>
      by_cases hmB : ag ∈ docAgents dB.allowed_list <;>
        simp [h1, h3, h4, hmA, hmB]
  · simp [List.lookup]
  · simp [List.lookup]
  · have hlook : List.lookup "B,A" [("A,B", (⟨"A,B", mAB, tAB⟩ : MergedPolicy))] = none := by
      simp [List.lookup]
    rcases hL : loadTenants fs ["B", "A"] (false, ∅, []) with ⟨found, targets, m⟩
    cases found <;> simp [getPolicyForTenant, hsplitBA, hlook, hL]

/-- Witness for C4: two concrete documents sharing agent `X`. -/
theorem multi_tenant_merge_witness :
    (([("tenant", ClaimVal.list ["A", "B"])] : Claims).lookup "tenant" =
      some (.list ["A", "B"])) ∧
    extractTenantFromClaims [("tenant", ClaimVal.list ["A", "B"])] = "A,B" :=
  ⟨rfl,
    (multi_tenant_merge [("tenant", ClaimVal.list ["A", "B"])]
      (fun s => if s = "a" then some ⟨[⟨"X", ["t1"]⟩]⟩
        else if s = "b" then some ⟨[⟨"X", ["t2"]⟩, ⟨"Y", ["t3"]⟩]⟩ else none)
      ⟨[⟨"X", ["t1"]⟩]⟩ ⟨[⟨"X", ["t2"]⟩, ⟨"Y", ["t3"]⟩]⟩
      rfl (by decide) (by decide)).1⟩

/-- C5: when the matched agent rule grants `call_remote_agent`, a missing
or falsy `agent_name` argument denies with the "Missing" reason, a truthy
target whose stripped string form is outside the Valid Target Set denies
with the "not a valid agent in this tenant" reason, and a target inside
the set passes the whole check (allow). -/
theorem call_remote_agent_target_check (agentId : String) (claims : Claims)
    (toolArgs : Args) (fs : Fs) (cache : Cache) (t : String) (p : MergedPolicy)
    (c' : Cache) (b : Bool) (r : MergedRule)
    (ht : extractTenantFromClaims claims = t) (ht1 : t ≠ "")
    (ht2 : startsWithList "<".data t.data = false)
    (hp : getPolicyForTenant fs cache t = (some p, c', b))
    (hfind : p.allowed_list.find? (fun item => pyStrip item.agent_id = pyStrip agentId) =
      some r)
    (htool : "call_remote_agent" ∈ r.allowed_tools) :
    ((argGet toolArgs "agent_name").truthy = false →
      (beforeToolCallbackCore agentId claims "call_remote_agent" toolArgs fs cache).verdict =
        some ("Policy Violation: " ++ "Missing 'agent_name' argument.")) ∧
    (∀ v, argGet toolArgs "agent_name" = v → v.truthy = true →
      pyStrip v.toStr ∉ p.valid_targets →
      (beforeToolCallbackCore agentId claims "call_remote_agent" toolArgs fs cache).verdict =
        some ("Policy Violation: " ++ ("Access Denied: Target '" ++ v.toStr ++
          "' is not a valid agent in this tenant."))) ∧
    (∀ v, argGet toolArgs "agent_name" = v → v.truthy = true →
      pyStrip v.toStr ∈ p.valid_targets →
      (beforeToolCallbackCore agentId claims "call_remote_agent" toolArgs fs cache).verdict =
        none) := by
  refine ⟨?_, ?_, ?_⟩
  · intro hmiss
    simp [beforeToolCallbackCore, ht, ht1, ht2, hp, checkAllowlistRule, hfind, htool, hmiss]
  · intro v hv htr htgt
    simp [beforeToolCallbackCore, ht, ht1, ht2, hp, checkAllowlistRule, hfind, htool, hv,
      htr, htgt]
  · intro v hv htr htgt
    simp [beforeToolCallbackCore, ht, ht1, ht2, hp, checkAllowlistRule, hfind, htool, hv,
      htr, htgt]

/-- Witness for C5: tenant `logistics` grants `Orchestrator` the tool
`call_remote_agent` and lists `Delivery Agent`; delegating to
`Delivery Agent` is allowed, delegating to `Unknown Agent` is denied. -/
theorem call_remote_agent_target_check_witness :
    (beforeToolCallbackCore "Orchestrator" [("tenant", .str "logistics")]
        "call_remote_agent" [("agent_name", .pStr "Delivery Agent")]
        (fun s => if s = "logistics" then
          some ⟨[⟨"Orchestrator", ["call_remote_agent"]⟩, ⟨"Delivery Agent", ["deliver_package"]⟩]⟩
          else none) []).verdict = none ∧
    (beforeToolCallbackCore "Orchestrator" [("tenant", .str "logistics")]
        "call_remote_agent" [("agent_name", .pStr "Unknown Agent")]
        (fun s => if s = "logistics" then
          some ⟨[⟨"Orchestrator", ["call_remote_agent"]⟩, ⟨"Delivery Agent", ["deliver_package"]⟩]⟩
          else none) []).verdict =
      some ("Policy Violation: " ++ ("Access Denied: Target '" ++ "Unknown Agent" ++
        "' is not a valid agent in this tenant.")) := by
  constructor
  · exact (call_remote_agent_target_check "Orchestrator" [("tenant", .str "logistics")]
      [("agent_name", .pStr "Delivery Agent")]
      (fun s => if s = "logistics" then
        some ⟨[⟨"Orchestrator", ["call_remote_agent"]⟩, ⟨"Delivery Agent", ["deliver_package"]⟩]⟩
        else none) [] "logistics"
      ⟨"logistics", [⟨"Orchestrator", {"call_remote_agent"}⟩, ⟨"Delivery Agent", {"deliver_package"}⟩],
        insert "Delivery Agent" {"Orchestrator"}⟩
      [("logistics", ⟨"logistics",
        [⟨"Orchestrator", {"call_remote_agent"}⟩, ⟨"Delivery Agent", {"deliver_package"}⟩],
        insert "Delivery Agent" {"Orchestrator"}⟩)] true
      ⟨"Orchestrator", {"call_remote_agent"}⟩
      rfl (by decide) (by decide) (by decide) (by decide) (by decide)).2.2
      (.pStr "Delivery Agent") (by decide) (by decide) (by decide)
  · exact (call_remote_agent_target_check "Orchestrator" [("tenant", .str "logistics")]
      [("agent_name", .pStr "Unknown Agent")]
      (fun s => if s = "logistics" then
        some ⟨[⟨"Orchestrator", ["call_remote_agent"]⟩, ⟨"Delivery Agent", ["deliver_package"]⟩]⟩
        else none) [] "logistics"
      ⟨"logistics", [⟨"Orchestrator", {"call_remote_agent"}⟩, ⟨"Delivery Agent", {"deliver_package"}⟩],
        insert "Delivery Agent" {"Orchestrator"}⟩
      [("logistics", ⟨"logistics",
        [⟨"Orchestrator", {"call_remote_agent"}⟩, ⟨"Delivery Agent", {"deliver_package"}⟩],
        insert "Delivery Agent" {"Orchestrator"}⟩)] true
      ⟨"Orchestrator", {"call_remote_agent"}⟩
      rfl (by decide) (by decide) (by decide) (by decide) (by decide)).2.1
      (.pStr "Unknown Agent") (by decide) (by decide) (by decide)

/-! ## Cache shape lemmas for the policy store -/

theorem getPolicy_of_hit {fs : Fs} {cache : Cache} {t : String} {p : MergedPolicy}
    (h : cache.lookup t = some p) :
    getPolicyForTenant fs cache t = (some p, cache, false) := by
  simp [getPolicyForTenant, h]

theorem getPolicy_miss_shape {fs : Fs} {cache : Cache} {t : String}
    (h : cache.lookup t = none) :
    getPolicyForTenant fs cache t = (none, cache, true) ∨
    ∃ p, getPolicyForTenant fs cache t = (some p, (t, p) :: cache, true) := by
  rcases hLT : loadTenants fs (splitComma t) (false, ∅, []) with ⟨found, targets, m⟩
  cases found
  · left
    simp [getPolicyForTenant, h, hLT]
  · right
    exact ⟨⟨t, m, targets⟩, by simp [getPolicyForTenant, h, hLT]⟩

theorem getPolicy_cold_success {fs : Fs} {cache : Cache} {t : String} {p : MergedPolicy}
    {c' : Cache} (h : getPolicyForTenant fs cache t = (some p, c', true)) :
    c' = (t, p) :: cache ∧ c'.lookup t = some p := by
  cases hc : cache.lookup t with
  | some q =>
    rw [getPolicy_of_hit hc] at h
    simp [Prod.ext_iff] at h
  | none =>
    rcases @getPolicy_miss_shape fs _ _ hc with hm | ⟨q, hq⟩
    · rw [hm] at h
      simp [Prod.ext_iff] at h
    · rw [hq] at h
      simp only [Prod.ext_iff, Option.some.injEq] at h
      obtain ⟨hqp, hcc, _⟩ := h
      subst hqp
      exact ⟨hcc.symm, by simp [hcc.symm, List.lookup]⟩

theorem getPolicy_none_shape {fs : Fs} {cache : Cache} {t : String} {c' : Cache} {b : Bool}
    (h : getPolicyForTenant fs cache t = (none, c', b)) : c' = cache ∧ b = true := by
  cases hc : cache.lookup t with
  | some q =>
    rw [getPolicy_of_hit hc] at h
    simp [Prod.ext_iff] at h
  | none =>
    rcases @getPolicy_miss_shape fs _ _ hc with hm | ⟨q, hq⟩
    · rw [hm] at h
      simp only [Prod.ext_iff] at h
      exact ⟨h.2.1.symm, h.2.2.symm⟩
    · rw [hq] at h
      simp [Prod.ext_iff] at h

theorem getPolicy_hit_shape {fs : Fs} {cache : Cache} {t : String} {p : MergedPolicy}
    {c' : Cache} (h : getPolicyForTenant fs cache t = (some p, c', false)) :
    c' = cache ∧ cache.lookup t = some p := by
  cases hc : cache.lookup t with
  | some q =>
    rw [getPolicy_of_hit hc] at h
    have hq : q = p := by
      have := congrArg (fun x => x.1) h
      simpa using this
    have hcc : c' = cache := by
      have := congrArg (fun x => x.2.1) h
      simpa using this.symm
    subst hq
    exact ⟨hcc, rfl⟩
  | none =>
    rcases @getPolicy_miss_shape fs _ _ hc with hm | ⟨q, hq⟩
    · rw [hm] at h
      simp [Prod.ext_iff] at h
    · rw [hq] at h
      simp [Prod.ext_iff] at h

/-- C6: the store caches per Tenant Key — a successful cold load leaves
the merged document under its key and every later resolution for that
key answers from the cache without reading any policy source (any `fs2`);
a load that finds no constituent document caches nothing, so a later
resolution re-attempts the load; consequently two consecutive
`before_tool_callback` evaluations with identical inputs over an
unchanged source produce identical verdicts and, when a policy document
exists for the resolved key, the second evaluation reads no source. -/
theorem policy_cache_behaviour (fs : Fs) (cache : Cache) (t : String) :
    (∀ p c', getPolicyForTenant fs cache t = (some p, c', true) →
      c'.lookup t = some p ∧ ∀ fs2, getPolicyForTenant fs2 c' t = (some p, c', false)) ∧
    (∀ c' b, getPolicyForTenant fs cache t = (none, c', b) →
      c' = cache ∧ b = true) ∧
    (∀ agentId claims toolName toolArgs,
      (beforeToolCallbackCore agentId claims toolName toolArgs fs
          (beforeToolCallbackCore agentId claims toolName toolArgs fs cache).cache).verdict =
        (beforeToolCallbackCore agentId claims toolName toolArgs fs cache).verdict ∧
      ((getPolicyForTenant fs cache (extractTenantFromClaims claims)).1.isSome = true →
        (beforeToolCallbackCore agentId claims toolName toolArgs fs
          (beforeToolCallbackCore agentId claims toolName toolArgs fs cache).cache).fsRead =
          false)) := by
  refine ⟨?_, ?_, ?_⟩
  · intro p c' h
    obtain ⟨hshape, hlook⟩ := getPolicy_cold_success h
    exact ⟨hlook, fun fs2 => getPolicy_of_hit hlook⟩
  · intro c' b h
    exact getPolicy_none_shape h
  · intro agentId claims toolName toolArgs
    by_cases hcond : extractTenantFromClaims claims = "" ∨
        startsWithList "<".data (extractTenantFromClaims claims).data
    · constructor
      · simp [beforeToolCallbackCore, hcond]
      · intro _
        simp [beforeToolCallbackCore, hcond]
    · rcases hg : getPolicyForTenant fs cache (extractTenantFromClaims claims)
        with ⟨optP, c', b⟩
      cases optP with
      | none =>
        obtain ⟨hc', _⟩ := getPolicy_none_shape hg
        subst hc'
        constructor
        · simp [beforeToolCallbackCore, hcond, hg]
        · intro hsome
          simp at hsome
      | some p =>
        have hsecond : getPolicyForTenant fs c' (extractTenantFromClaims claims) =
            (some p, c', false) := by
          cases b with
          | false =>
            obtain ⟨hc', hlook⟩ := getPolicy_hit_shape hg
            subst hc'
            exact getPolicy_of_hit hlook
          | true =>
            obtain ⟨_, hlook⟩ := getPolicy_cold_success hg
            exact getPolicy_of_hit hlook
        cases hv : checkAllowlistRule agentId toolName (some p)
            (extractTenantFromClaims claims) toolArgs with
        | none =>
          constructor
          · simp [beforeToolCallbackCore, hcond, hg, hsecond, hv]
          · intro _
            simp [beforeToolCallbackCore, hcond, hg, hsecond, hv]
        | some v =>
          constructor
          · simp [beforeToolCallbackCore, hcond, hg, hsecond, hv]
          · intro _
            simp [beforeToolCallbackCore, hcond, hg, hsecond, hv]

/-- Witness for C6: after a concrete cold load for tenant `pack`, the
cache holds the merged document and a repeat resolution is a cache hit
that reads no source. -/
theorem policy_cache_behaviour_witness :
    (([("pack", (⟨"pack", [⟨"Bob", {"t1"}⟩], {"Bob"}⟩ : MergedPolicy))] : Cache).lookup
        "pack" = some ⟨"pack", [⟨"Bob", {"t1"}⟩], {"Bob"}⟩) ∧
    getPolicyForTenant (fun s => if s = "pack" then some ⟨[⟨"Bob", ["t1"]⟩]⟩ else none)
        [("pack", ⟨"pack", [⟨"Bob", {"t1"}⟩], {"Bob"}⟩)] "pack" =
      (some ⟨"pack", [⟨"Bob", {"t1"}⟩], {"Bob"}⟩,
        [("pack", ⟨"pack", [⟨"Bob", {"t1"}⟩], {"Bob"}⟩)], false) := by
  have h := (policy_cache_behaviour
    (fun s => if s = "pack" then some ⟨[⟨"Bob", ["t1"]⟩]⟩ else none) [] "pack").1
    ⟨"pack", [⟨"Bob", {"t1"}⟩], {"Bob"}⟩
    [("pack", ⟨"pack", [⟨"Bob", {"t1"}⟩], {"Bob"}⟩)] (by decide)
  exact ⟨h.1, h.2 (fun s => if s = "pack" then some ⟨[⟨"Bob", ["t1"]⟩]⟩ else none)⟩

/-- C7 (amended): the credential locator returns the first match in
order — the truthy tunnel; then the first truthy `auth_token` of the
state containers; then one candidate list holding the four argument
entries, the container walk of the context, the walk of its `metadata`
attribute, the truthy hint and the truthy last token, selected by first
non-empty sanitized form, `""` when none matches.  The recursive walk
covers `envelope` only as a mapping key, not as an object attribute, and
exceptions arise only inside the walks (on a truthy non-mapping
`headers` entry) and propagate. -/
theorem locator_precedence {n : Nat} (loc : LocState) (h : Heap n) (ctx : PyVal n)
    (args : Args) :
    (optTruthy loc.tunnel = true →
      extractAuthToken loc h ctx args = .ok (sanitizeBearer (loc.tunnel.getD ""))) ∧
    (optTruthy loc.tunnel = false → ∀ t, scanStates h (possibleStates h ctx) = some t →
      extractAuthToken loc h ctx args = .ok t) ∧
    (optTruthy loc.tunnel = false → scanStates h (possibleStates h ctx) = none →
      ∀ w1 w2, extractTokenFromContainer h ctx = .ok w1 →
        extractTokenFromContainer h (pyGetattr h ctx "metadata") = .ok w2 →
        extractAuthToken loc h ctx args = .ok (firstNonEmpty
          ([sanitizePrim (argGet args "auth_token"), sanitizePrim (argGet args "token"),
            sanitizePrim (argGet args "Authorization"),
            sanitizePrim (argGet args "authorization"),
            sanitizeBearer w1, sanitizeBearer w2] ++
          (if optTruthy loc.hint then [sanitizeBearer (loc.hint.getD "")] else []) ++
          (if optTruthy loc.last then [sanitizeBearer (loc.last.getD "")] else [])))) ∧
    (optTruthy loc.tunnel = false → scanStates h (possibleStates h ctx) = none →
      ∀ e, extractTokenFromContainer h ctx = .error e →
        extractAuthToken loc h ctx args = .error e) ∧
    (optTruthy loc.tunnel = false → scanStates h (possibleStates h ctx) = none →
      loc.hint = none → loc.last = none →
      sanitizePrim (argGet args "auth_token") = "" →
      sanitizePrim (argGet args "token") = "" →
      sanitizePrim (argGet args "Authorization") = "" →
      sanitizePrim (argGet args "authorization") = "" →
      extractTokenFromContainer h ctx = .ok "" →
      extractTokenFromContainer h (pyGetattr h ctx "metadata") = .ok "" →
      extractAuthToken loc h ctx args = .ok "") := by
  refine ⟨?_, ?_, ?_, ?_, ?_⟩
  · intro htun
    simp [extractAuthToken, htun]
  · intro htun t hscan
    simp [extractAuthToken, htun, hscan]
  · intro htun hscan w1 w2 hw1 hw2
    simp [extractAuthToken, htun, hscan, hw1, hw2, bind, Except.bind]
  · intro htun hscan e hw1
    simp [extractAuthToken, htun, hscan, hw1, bind, Except.bind]
  · intro htun hscan hh hl h1 h2 h3 h4 hw1 hw2
    have hono : optTruthy none = false := rfl
    simp [extractAuthToken, htun, hscan, hw1, hw2, bind, Except.bind, hh, hl, h1, h2, h3,
      h4, firstNonEmpty, sanitizeBearer, hono]

/-- Counterexample for C7: a context object whose only content is an
`envelope` attribute holding a dict with a bearer entry.  Walking that
dict directly yields the token, so the claim's step 4 ("object
attributes of the same names", `envelope` included) predicts the token —
but the locator returns `""` because the attribute recursion skips
`envelope`. -/
theorem locator_envelope_attribute_skipped :
    extractTokenFromContainer
        (fun i => if i = (0 : Fin 2) then ⟨.obj, [("envelope", .addr 1)], []⟩
          else ⟨.dict, [("auth_token", .vStr "tok")], []⟩)
        (.addr 1) = .ok "tok" ∧
    pyGetattr
        (fun i => if i = (0 : Fin 2) then ⟨.obj, [("envelope", .addr 1)], []⟩
          else ⟨.dict, [("auth_token", .vStr "tok")], []⟩)
        (.addr 0) "envelope" = .addr 1 ∧
    extractAuthToken ⟨none, none, none⟩
        (fun i => if i = (0 : Fin 2) then ⟨.obj, [("envelope", .addr 1)], []⟩
          else ⟨.dict, [("auth_token", .vStr "tok")], []⟩)
        (.addr 0) [] = .ok "" := by
  refine ⟨?_, ?_, ?_⟩
  · simp [extractTokenFromContainer, walk, nodeFalsy, headersTarget, firstPresentKey,
      sanitizeVal, valTruthy, pyValStr, sanitizeBearer, pyStrip, pyLower, startsWithList,
      pyWs, List.lookup, Except.map]
  · simp [pyGetattr, List.lookup]
  · simp [extractAuthToken, optTruthy, scanStates, possibleStates, pyHasattr, pyGetattr,
      isDictV, extractTokenFromContainer, walk, nodeFalsy, headersTarget, firstPresentKey,
      attrVals, nestedVals, valTruthy, List.lookup, bind, Except.bind, Except.map,
      sanitizePrim, argGet, firstNonEmpty, PyPrim.truthy, sanitizeBearer]

/-- Witness for C7 (amended): a truthy tunnel value wins outright and is
sanitized. -/
theorem locator_precedence_witness :
    optTruthy (some "Bearer abc") = true ∧
    extractAuthToken ⟨some "Bearer abc", none, none⟩ (fun i => Fin.elim0 i) .vNone [] =
      .ok "abc" := by
  constructor
  · rfl
  · have h := (@locator_precedence 0 ⟨some "Bearer abc", none, none⟩
      (fun i => Fin.elim0 i) .vNone []).1 rfl
    rw [h]
    rfl

/-- C8: the recursive container walk terminates on cyclic input — a
self-referential object (reachable from itself through its `context`
attribute) and a two-node `context` cycle both terminate with `""`
thanks to the visited-identity tracking that also grounds the recursion
of `walk` itself — but on a mapping whose `headers` entry is a truthy
non-mapping (Python `{"headers": "x"}`) the walk raises
(`AttributeError` at `headers.get(...)`) instead of returning a string,
contradicting the claim's "returns a possibly-empty string" on every
input. -/
theorem walk_terminates_but_raises_on_bad_headers :
    extractTokenFromContainer
        (fun (_ : Fin 1) => (⟨.obj, [("context", .addr 0)], []⟩ : PyNode 1))
        (.addr 0) = .ok "" ∧
    extractTokenFromContainer
        (fun i => if i = (0 : Fin 2) then (⟨.obj, [("context", .addr 1)], []⟩ : PyNode 2)
          else ⟨.obj, [("context", .addr 0)], []⟩)
        (.addr 0) = .ok "" ∧
    extractTokenFromContainer
        (fun (_ : Fin 1) => (⟨.dict, [("headers", .vStr "x")], []⟩ : PyNode 1))
        (.addr 0) = .error () := by
  refine ⟨?_, ?_, ?_⟩
  · simp [extractTokenFromContainer, walk, nodeFalsy, attrVals, List.lookup, Except.map]
  · simp [extractTokenFromContainer, walk, nodeFalsy, attrVals, List.lookup, Except.map]
  · simp [extractTokenFromContainer, walk, nodeFalsy, headersTarget, valTruthy,
      List.lookup, Except.map]

set_option maxHeartbeats 1000000 in
/-- C9 (amended): a rule carrying a truthy authentication-required flag
denies with "Authentication required for this tool" when the locator
resolves no credential (and the earlier checks pass); when evaluation
returns at all, the argument mapping comes back exactly as it went in —
no subject/scheme/email fields are ever injected. -/
theorem requires_auth_denies_and_never_injects {n : Nat} (env : String → TokenInfo)
    (cfg : JwtConfig) (loc : LocState) (h : Heap n) (toolName : String) (toolArgs : Args)
    (rule : ToolRule) (ctx : PyVal n) :
    (rule.allowed_agents = [] → rule.max_task_length = none →
      requiresAuthFlag rule.requires_auth = true →
      extractAuthToken loc h ctx toolArgs = .ok "" →
      checkToolRule env cfg loc h toolName toolArgs rule ctx =
        .ok (some "Authentication required for this tool", toolArgs)) ∧
    (∀ v args', checkToolRule env cfg loc h toolName toolArgs rule ctx = .ok (v, args') →
      args' = toolArgs) := by
  constructor
  · intro ha hm hf hw
    have hv : checkToolRuleVerdict env cfg loc h toolName toolArgs rule ctx =
        .ok (some "Authentication required for this tool") := by
      simp [checkToolRuleVerdict, ha, hm, hf, hw, bind, Except.bind, pure, Except.pure]
    simp [checkToolRule, hv, bind, Except.bind, pure, Except.pure]
  · intro v args' hres
    simp only [checkToolRule, bind, Except.bind, pure, Except.pure] at hres
    cases hV : checkToolRuleVerdict env cfg loc h toolName toolArgs rule ctx with
    | error e =>
      rw [hV] at hres
      exact Except.noConfusion hres
    | ok verdict =>
      rw [hV] at hres
      injection hres with h1
      injection h1 with h2 h3
      exact h3.symm

/-- Witness for C9 (amended): with no credential anywhere, a bare
`requires_auth` rule denies with the authentication-required reason and
hands the argument mapping back unchanged. -/
theorem requires_auth_denies_and_never_injects_witness :
    checkToolRule (fun _ => ⟨true, [], "HS256", fun _ => false, false, none⟩)
        ⟨none, none, "HS256", none⟩ ⟨none, none, none⟩ (fun i => Fin.elim0 i)
        "toolY" [] ⟨[], none, .pBool true, none, none, none⟩ .vNone =
      .ok (some "Authentication required for this tool", []) := by
  exact (requires_auth_denies_and_never_injects
    (fun _ => ⟨true, [], "HS256", fun _ => false, false, none⟩)
    ⟨none, none, "HS256", none⟩ ⟨none, none, none⟩ (fun i => Fin.elim0 i)
    "toolY" [] ⟨[], none, .pBool true, none, none, none⟩ .vNone).1
    rfl rfl rfl
    (by simp [extractAuthToken, optTruthy, scanStates, possibleStates, pyHasattr,
      extractTokenFromContainer, walk, pyGetattr, bind, Except.bind, Except.map,
      sanitizePrim, argGet, firstNonEmpty, PyPrim.truthy, sanitizeBearer])

/-- Counterexample for C9: a rule with `requires_auth` set, a resolvable
credential (the direct tunnel holds `tok123`), and an empty argument
mapping: evaluation passes the flag check yet returns the mapping
unchanged — no `sub`, `scheme` or `email` entry was injected, while the
claim requires them. -/
theorem requires_auth_injects_nothing_concrete :
    checkToolRule (fun _ => ⟨true, [], "HS256", fun _ => false, false, none⟩)
        ⟨none, none, "HS256", none⟩ ⟨some "tok123", none, none⟩ (fun i => Fin.elim0 i)
        "toolY" [] ⟨[], none, .pBool true, none, none, none⟩ .vNone = .ok (none, []) ∧
    (([] : Args).lookup "sub" = none) ∧ (([] : Args).lookup "scheme" = none) ∧
    (([] : Args).lookup "email" = none) := by
  refine ⟨?_, rfl, rfl, rfl⟩
  rfl

/-- C10 (amended): `_send_log` posts with `timeout=2` and swallows every
transport outcome; an allowlist-rule violation emits exactly one audit
record of shape `(agent_id, "tool_blocked", tool, reason, tenant)` and is
the only denial that emits one — the "no valid tenant" and "no policy"
denials emit none — and allowed calls emit none; the verdict never
depends on the transport. -/
theorem audit_only_on_rule_violations (agentId : String) (claims : Claims)
    (toolName : String) (toolArgs : Args) (fs : Fs) (cache : Cache) :
    (∀ post payload, sendLog post payload = ()) ∧
    (∀ t p c' b v, extractTenantFromClaims claims = t → t ≠ "" →
      startsWithList "<".data t.data = false →
      getPolicyForTenant fs cache t = (some p, c', b) →
      checkAllowlistRule agentId toolName (some p) t toolArgs = some v →
      (beforeToolCallbackCore agentId claims toolName toolArgs fs cache).audits =
        [⟨agentId, "tool_blocked", toolName, v, t⟩] ∧
      (beforeToolCallbackCore agentId claims toolName toolArgs fs cache).verdict =
        some ("Policy Violation: " ++ v)) ∧
    (∀ t p c' b, extractTenantFromClaims claims = t → t ≠ "" →
      startsWithList "<".data t.data = false →
      getPolicyForTenant fs cache t = (some p, c', b) →
      checkAllowlistRule agentId toolName (some p) t toolArgs = none →
      (beforeToolCallbackCore agentId claims toolName toolArgs fs cache).audits = []) ∧
    ((extractTenantFromClaims claims = "" ∨
        startsWithList "<".data (extractTenantFromClaims claims).data = true) →
      (beforeToolCallbackCore agentId claims toolName toolArgs fs cache).audits = [] ∧
      (beforeToolCallbackCore agentId claims toolName toolArgs fs cache).verdict.isSome =
        true) ∧
    (∀ t c' b, extractTenantFromClaims claims = t → t ≠ "" →
      startsWithList "<".data t.data = false →
      getPolicyForTenant fs cache t = (none, c', b) →
      (beforeToolCallbackCore agentId claims toolName toolArgs fs cache).audits = [] ∧
      (beforeToolCallbackCore agentId claims toolName toolArgs fs cache).verdict.isSome =
        true) := by
  refine ⟨?_, ?_, ?_, ?_, ?_⟩
  · intro post payload
    simp [sendLog]
  · intro t p c' b v ht ht1 ht2 hp hv
    constructor <;> simp [beforeToolCallbackCore, ht, ht1, ht2, hp, hv]
  · intro t p c' b ht ht1 ht2 hp hv
    simp [beforeToolCallbackCore, ht, ht1, ht2, hp, hv]
  · intro hcond
    constructor <;> simp [beforeToolCallbackCore, hcond]
  · intro t c' b ht ht1 ht2 hp
    constructor <;> simp [beforeToolCallbackCore, ht, ht1, ht2, hp]

/-- Counterexample for C10: the "no valid tenant" denial emits no audit
record at all, while the claim requires every denial to emit one. -/
theorem denial_without_audit_concrete :
    (beforeToolCallbackCore "agentB" [("roles", .str "admin")] "toolZ" []
        (fun _ => none) []).verdict = some "Access Denied: No valid tenant found." ∧
    (beforeToolCallbackCore "agentB" [("roles", .str "admin")] "toolZ" []
        (fun _ => none) []).audits = [] := by
  constructor <;> rfl

/-- Witness for C10 (amended): a concrete agent-not-defined violation
under tenant `beta` emits exactly the five-field `tool_blocked` record,
and a concrete `sendLog` call over a failing transport returns unit. -/
theorem audit_only_on_rule_violations_witness :
    (beforeToolCallbackCore "Carol" [("tenant", .str "beta")] "t1" []
        (fun s => if s = "beta" then some ⟨[⟨"Dan", ["t1"]⟩]⟩ else none) []).audits =
      [⟨"Carol", "tool_blocked", "t1",
        "Access Denied: Agent 'Carol' is not defined in the policy.", "beta"⟩] ∧
    sendLog (fun _ _ => .error ())
      ⟨"Carol", "tool_blocked", "t1", "reason", "beta"⟩ = () := by
  constructor
  · exact ((audit_only_on_rule_violations "Carol" [("tenant", .str "beta")] "t1" []
      (fun s => if s = "beta" then some ⟨[⟨"Dan", ["t1"]⟩]⟩ else none) []).2.1
      "beta" ⟨"beta", [⟨"Dan", {"t1"}⟩], {"Dan"}⟩
      [("beta", ⟨"beta", [⟨"Dan", {"t1"}⟩], {"Dan"}⟩)] true
      "Access Denied: Agent 'Carol' is not defined in the policy."
      rfl (by decide) (by decide) (by decide) (by decide)).1
  · exact (audit_only_on_rule_violations "Carol" [("tenant", .str "beta")] "t1" []
      (fun s => if s = "beta" then some ⟨[⟨"Dan", ["t1"]⟩]⟩ else none) []).1
      (fun _ _ => .error ()) ⟨"Carol", "tool_blocked", "t1", "reason", "beta"⟩

end IamPolicy
